import Mathlib

/-!
Verification development for the ML_log_analysis pipeline
(esvectorize.py / esanalyze.py / esconstants.py).

The Python code is shallowly embedded: numpy float arrays become
functions `ℕ → ℝ` (hour-indexed count vectors of length 24, indices
0..23 used), complex FFT arrays become `ℕ → ℂ`, Python dicts become
association lists or option-valued lookups, and an uncaught Python
exception is modelled by an `Option`-valued result being `none`.
All arithmetic is exact (real/complex); IEEE-float rounding is out of
scope and noted where it matters.
-/

open scoped BigOperators

namespace ESLog

/-! ## Constants (esconstants.py) -/

/-- esconstants.NUM_BUCKETS: 24 hourly buckets plus one subtype column. -/
def NUM_BUCKETS : ℕ := 25

/-- esconstants.LOW_PC: low percentile cut for baseline cleaning. -/
def LOW_PC : ℝ := 1

/-- esconstants.HIGH_PC: high percentile cut for baseline cleaning. -/
def HIGH_PC : ℝ := 99

/-- esconstants.FFT_ANALYSIS_DEPTH: number of frequency components compared. -/
def FFT_ANALYSIS_DEPTH : ℕ := 5

/-- esconstants.FFT_COMPONENT_WEIGHT: geometric decay factor of the weights. -/
def FFT_COMPONENT_WEIGHT : ℝ := 2

/-- esconstants.FFT_TEST_DIFF_THRESHOLD: global-difference threshold. -/
noncomputable def FFT_TEST_DIFF_THRESHOLD : ℝ := 1/2

/-- esconstants.FFT_POINT_DIFF_THRESHOLD: per-point attribution threshold. -/
noncomputable def FFT_POINT_DIFF_THRESHOLD : ℝ := 1/4

/-! ## Vectors and the discrete Fourier transform -/

/-- An hourly count vector: exactly 24 slots, index = hour of day
(the 25th numpy column holding the subtype id is shaved off by
`_get_vector` before any of the code modelled here runs). -/
abbrev Vec := Fin 24 → ℝ

/-- Modelled from the spec of the external collaborator `scipy.fftpack.fft`
(not part of this repository): the standard discrete Fourier transform
`y[k] = Σ_{n<N} x[n]·exp(-2πi·k·n/N)`. -/
noncomputable def fftpack_fft (N : ℕ) (x : Fin N → ℂ) (k : ℕ) : ℂ :=
  ∑ n : Fin N, x n * Complex.exp (-(2 * (Real.pi : ℂ) * Complex.I) * ((k : ℂ) * (n.val : ℂ)) / (N : ℂ))

/-- esanalyze.ESAnalyze._fft_slow: the naive DFT.  The source builds the
matrix `M[k][n] = exp(-2j*π*k*n/N)` and returns `dot(M, x)`. -/
noncomputable def fft_slow (N : ℕ) (x : Fin N → ℝ) (k : ℕ) : ℂ :=
  ∑ n : Fin N, Complex.exp (-(2 * (Real.pi : ℂ) * Complex.I) * ((k : ℂ) * (n.val : ℂ)) / (N : ℂ)) * (x n : ℂ)

/-- The FFT of a 24-slot hourly vector, as the scorer computes it
(`fftpack.fft(test[type_key][subtype])`). -/
noncomputable def fft24 (x : Vec) : ℕ → ℂ :=
  fftpack_fft 24 (fun n => (x n : ℂ))

/-! ## The scorer's distance metric (esanalyze.ESAnalyze._fft_amplitude_diff) -/

/-- The loop of `_fft_amplitude_diff`: starting at component `i` with
current weight `w`, append `abs(abs(test[i]) - abs(train[i])) / w` for
`m` further components, multiplying the weight by
`FFT_COMPONENT_WEIGHT` after each step. -/
noncomputable def freq_diffs_from (test train : ℕ → ℂ) : ℕ → ℕ → ℝ → List ℝ
  | _, 0, _ => []
  | i, m + 1, w =>
      (|Complex.abs (test i) - Complex.abs (train i)| / w) ::
        freq_diffs_from test train (i + 1) m (w * FFT_COMPONENT_WEIGHT)

/-- esanalyze.ESAnalyze._fft_amplitude_diff: sum the weighted component
differences over `FFT_ANALYSIS_DEPTH` components, divide by the depth
and by `abs(train[i])` where `i` is the loop variable after the loop,
i.e. the last visited index `FFT_ANALYSIS_DEPTH - 1`. -/
noncomputable def fft_amplitude_diff (test train : ℕ → ℂ) : ℝ :=
  (freq_diffs_from test train 0 FFT_ANALYSIS_DEPTH 1).sum / (FFT_ANALYSIS_DEPTH : ℝ) /
    Complex.abs (train (FFT_ANALYSIS_DEPTH - 1))

/-- The distance metric `D` on a (test vector, baseline vector) pair as
computed in `outlier_detection` lines 142-145. -/
noncomputable def amplitude_diff (test train : Vec) : ℝ :=
  fft_amplitude_diff (fft24 test) (fft24 train)

/-! ## Claims C10 and C1 -/

/-! ## The per-pair scorer (esanalyze.ESAnalyze.outlier_detection) -/

/-- The counterfactual test vector of the attribution loop
(lines 155-157): the test vector with slot `i` replaced by the
baseline's value at slot `i`. -/
noncomputable def counterfactual (test train : Vec) (i : Fin 24) : Vec :=
  Function.update test i (train i)

/-- The relative improvement `(D - D_i) / D` of line 166-167. -/
noncomputable def point_ratio (test train : Vec) (i : Fin 24) : ℝ :=
  (amplitude_diff test train - amplitude_diff (counterfactual test train i) train) /
    amplitude_diff test train

/-- The outlier positions appended for a pair that has a baseline
(lines 140-169): if the overall difference is below
`FFT_TEST_DIFF_THRESHOLD` the pair is skipped (`continue`, empty list);
otherwise the loop over `i in range(NUM_BUCKETS - 1)` (hours 0..23)
appends every `i` whose relative improvement exceeds
`FFT_POINT_DIFF_THRESHOLD`. -/
noncomputable def compared_positions (test train : Vec) : List (Fin 24) :=
  if amplitude_diff test train < FFT_TEST_DIFF_THRESHOLD then []
  else (List.finRange 24).filter fun i =>
    decide (point_ratio test train i > FFT_POINT_DIFF_THRESHOLD)

/-- The `except KeyError` branch (lines 193-206): every hour whose test
count is `>= 1` is appended, over `range(0, len(test_vector))` = 0..23. -/
noncomputable def no_baseline_positions (test : Vec) : List (Fin 24) :=
  (List.finRange 24).filter fun i => decide (1 ≤ test i)

/-- One (type, subtype) pair of the `outlier_detection` loop body.
`none` means nothing is stored into `self.outliers` for the pair:
with a baseline present, `_store_outlier_alerts` runs only when
`outlier_positions` is non-empty (line 209); on the KeyError
(no-baseline) branch it runs unconditionally (line 204), even when the
appended list is empty. -/
noncomputable def score_pair (test : Vec) (train_entry : Option Vec) :
    Option (List (Fin 24)) :=
  match train_entry with
  | none => some (no_baseline_positions test)
  | some tr =>
      if compared_positions test tr = [] then none
      else some (compared_positions test tr)

/-- The stored outlier records of a whole run of `outlier_detection`:
`testset` is the test-day DayVectorSet in dict iteration order,
`trainset` maps (weekday, type, subtype) to the baseline vector
(`train[day][type_key][subtype]`, `none` for a KeyError), and `day` is
the weekday of `datetime.now(...) - TEST_DAY` computed at line 124-126. -/
noncomputable def outlier_records (testset : List (String × List (String × Vec)))
    (trainset : ℕ → String → String → Option Vec) (day : ℕ) :
    List (String × String × List (Fin 24)) :=
  (testset.map fun p =>
    p.2.filterMap fun q =>
      (score_pair q.2 (trainset day p.1 q.1)).map fun ps => (p.1, q.1, ps)).flatten

/-- `self.outliers_flag` after the run: it is set exactly when some
pair stored a record (`True` on every KeyError branch, and on a
compared pair precisely when its position list is non-empty). -/
noncomputable def outliers_flag (testset : List (String × List (String × Vec)))
    (trainset : ℕ → String → String → Option Vec) (day : ℕ) : Bool :=
  !(outlier_records testset trainset day).isEmpty

/-- The observable result of `outlier_detection`: the day flag and the
stored outlier records. -/
noncomputable def outlier_detection (testset : List (String × List (String × Vec)))
    (trainset : ℕ → String → String → Option Vec) (day : ℕ) :
    Bool × List (String × String × List (Fin 24)) :=
  (outliers_flag testset trainset day, outlier_records testset trainset day)

/-- C10: for every real input array of every length, the naive DFT
`_fft_slow` computes the same complex vector as the mathematical DFT
implemented by `fftpack.fft`, under exact arithmetic. -/
theorem fft_slow_eq_fftpack_fft (N : ℕ) (x : Fin N → ℝ) (k : ℕ) :
    fft_slow N x k = fftpack_fft N (fun n => (x n : ℂ)) k := by
  unfold fft_slow fftpack_fft
  exact Finset.sum_congr rfl fun n _ => mul_comm _ _

/-- C1: the scorer's distance metric `D` equals the closed form
`(Σ_{k<5} | |FFT(test)[k]| - |FFT(train)[k]| | / 2^k) / 5 / |FFT(train)[4]|`:
the sum over the first K = 5 frequency components of the absolute
magnitude differences, component k weighted by 1/2^k, divided by K and
by the magnitude of the baseline's component at index K-1 = 4. -/
theorem amplitude_diff_closed_form (test train : Vec) :
    amplitude_diff test train =
      (∑ k in Finset.range 5,
          |Complex.abs (fft24 test k) - Complex.abs (fft24 train k)| / 2 ^ k) / 5 /
        Complex.abs (fft24 train 4) := by
  unfold amplitude_diff fft_amplitude_diff FFT_ANALYSIS_DEPTH
  norm_num [freq_diffs_from, FFT_COMPONENT_WEIGHT, Finset.sum_range_succ]
  ring_nf

/-! ## Claim C9: identical test and baseline vectors -/

lemma freq_diffs_from_self_sum (F : ℕ → ℂ) (i m : ℕ) (w : ℝ) :
    (freq_diffs_from F F i m w).sum = 0 := by
  induction m generalizing i w with
  | zero => simp [freq_diffs_from]
  | succ m ih => simp [freq_diffs_from, ih]

lemma fft_amplitude_diff_self (F : ℕ → ℂ) : fft_amplitude_diff F F = 0 := by
  unfold fft_amplitude_diff
  rw [freq_diffs_from_self_sum]
  simp

lemma compared_positions_self (v : Vec) : compared_positions v v = [] := by
  unfold compared_positions amplitude_diff
  rw [fft_amplitude_diff_self]
  norm_num [FFT_TEST_DIFF_THRESHOLD]

lemma score_pair_self (v : Vec) : score_pair v (some v) = none := by
  simp [score_pair, compared_positions_self]

/-- C9: if the test vector equals the weekday baseline vector in all 24
slots, the distance metric `D` is 0 (the pair is skipped as
below-threshold) and no hour of the pair is recorded as an outlier
(nothing is stored into `self.outliers`). -/
theorem equal_pair_zero_metric_no_outliers (test train : Vec) (h : test = train) :
    amplitude_diff test train = 0 ∧ compared_positions test train = [] ∧
      score_pair test (some train) = none := by
  subst h
  exact ⟨fft_amplitude_diff_self _, compared_positions_self _, score_pair_self _⟩

/-- A day-vector with the single non-zero count 2 at hour 9
(the spec's missing-baseline scenario `[0]*9 + [2] + [0]*14`). -/
noncomputable def v9 : Vec := fun n => if n.val = 9 then 2 else 0

/-- Witness for `equal_pair_zero_metric_no_outliers` at the concrete
pair `test = train = v9`. -/
theorem equal_pair_zero_metric_no_outliers_witness :
    v9 = v9 ∧ (amplitude_diff v9 v9 = 0 ∧ compared_positions v9 v9 = [] ∧
      score_pair v9 (some v9) = none) :=
  ⟨rfl, equal_pair_zero_metric_no_outliers v9 v9 rfl⟩

/-! ## Claim C2: the no-baseline (KeyError) branch -/

lemma no_baseline_positions_v9 : no_baseline_positions v9 = [(9 : Fin 24)] := by
  have step : no_baseline_positions v9 =
      (List.finRange 24).filter fun i : Fin 24 => decide (i.val = 9) := by
    unfold no_baseline_positions
    refine List.filter_congr fun i _ => ?_
    by_cases h : i.val = 9 <;> simp [v9, h]
  rw [step]
  decide

/-- C2: for a pair absent from the baseline for the test weekday, the
appended outliers are exactly the hours with a non-zero test count, the
record is stored unconditionally (so the day flag becomes true), and on
the concrete test vector `[0]*9 + [2] + [0]*14` the stored list is
exactly `[9]` with the day flag true.  (No spectral comparison occurs
on this branch: `no_baseline_positions` does not involve
`fft_amplitude_diff`.) -/
theorem no_baseline_forced_alert :
    (∀ (t : Fin 24 → ℕ) (i : Fin 24),
        (i ∈ no_baseline_positions fun n => (t n : ℝ)) ↔ t i ≠ 0) ∧
    (∀ (t : Fin 24 → ℕ),
        score_pair (fun n => (t n : ℝ)) none =
          some (no_baseline_positions fun n => (t n : ℝ))) ∧
    no_baseline_positions v9 = [(9 : Fin 24)] ∧
    outlier_detection [("suricata", [("2010935", v9)])] (fun _ _ _ => none) 0 =
      (true, [("suricata", "2010935", [(9 : Fin 24)])]) := by
  refine ⟨?_, ?_, no_baseline_positions_v9, ?_⟩
  · intro t i
    simp [no_baseline_positions, List.mem_filter, Nat.one_le_cast,
      Nat.one_le_iff_ne_zero]
  · intro t
    rfl
  · unfold outlier_detection outliers_flag outlier_records
    simp [score_pair, no_baseline_positions_v9]

/-! ## Claim C3: zero magnitude of the normalizing component -/

/-- The all-zero baseline vector: its FFT is identically 0, so the
normalizing component `abs(trainfft[4])` has zero magnitude. -/
noncomputable def vzero : Vec := fun _ => 0

lemma fft24_vzero (k : ℕ) : fft24 vzero k = 0 := by
  unfold fft24 fftpack_fft vzero
  simp

/-- C3 counterexample: at a concrete pair whose baseline normalizing
component has zero magnitude, `_fft_amplitude_diff` raises nothing and
returns a value that flows straight into the threshold comparison (the
pair is silently judged normal).  In real-division semantics `x / 0 = 0`
here; in the IEEE execution the same unguarded division produces
inf/NaN — in neither case is a typed error raised, there being no such
branch in the code. -/
theorem degenerate_metric_counterexample :
    Complex.abs (fft24 vzero 4) = 0 ∧ amplitude_diff v9 vzero = 0 ∧
      score_pair v9 (some vzero) = none := by
  have habs : Complex.abs (fft24 vzero 4) = 0 := by rw [fft24_vzero]; simp
  have hD : amplitude_diff v9 vzero = 0 := by
    unfold amplitude_diff fft_amplitude_diff
    rw [show FFT_ANALYSIS_DEPTH - 1 = 4 from rfl, habs, div_zero]
  have hpos : compared_positions v9 vzero = [] := by
    unfold compared_positions
    rw [hD]
    norm_num [FFT_TEST_DIFF_THRESHOLD]
  exact ⟨habs, hD, by simp [score_pair, hpos]⟩

/-- C3 amended: when the baseline's normalizing component has zero
magnitude the code raises no error of any kind: the division is
performed unguarded and a numeric value flows into the threshold
comparisons.  In the exact-arithmetic model the metric collapses to 0
and the pair is silently skipped as below-threshold (in IEEE float
execution the value is inf or NaN instead; either way no error is
surfaced for the pair). -/
theorem degenerate_metric_no_error (test train : Vec)
    (h : Complex.abs (fft24 train 4) = 0) :
    amplitude_diff test train = 0 ∧ compared_positions test train = [] ∧
      score_pair test (some train) = none := by
  have hD : amplitude_diff test train = 0 := by
    unfold amplitude_diff fft_amplitude_diff
    rw [show FFT_ANALYSIS_DEPTH - 1 = 4 from rfl, h, div_zero]
  have hpos : compared_positions test train = [] := by
    unfold compared_positions
    rw [hD]
    norm_num [FFT_TEST_DIFF_THRESHOLD]
  exact ⟨hD, hpos, by simp [score_pair, hpos]⟩

/-- Witness for `degenerate_metric_no_error` at the concrete pair
`(v9, vzero)`. -/
theorem degenerate_metric_no_error_witness :
    Complex.abs (fft24 vzero 4) = 0 ∧
      (amplitude_diff v9 vzero = 0 ∧ compared_positions v9 vzero = [] ∧
        score_pair v9 (some vzero) = none) :=
  ⟨by rw [fft24_vzero]; simp,
    degenerate_metric_no_error v9 vzero (by rw [fft24_vzero]; simp)⟩

/-! ## Claim C7: determinism and the wall clock inside the scorer -/

/-- The test-day DayVectorSet used in the C7 scenario: one category
"c" with one subcategory "s" whose vector is `v9`. -/
noncomputable def testset7 : List (String × List (String × Vec)) :=
  [("c", [("s", v9)])]

/-- A training set whose weekday-0 slice holds the baseline `v9` for
("c", "s") and whose other weekday slices are empty. -/
noncomputable def trainset7 : ℕ → String → String → Option Vec :=
  fun day => if day = 0 then (fun _ _ => some v9) else (fun _ _ => none)

/-- A second training set agreeing with `trainset7` on weekday 0 and
differing elsewhere. -/
noncomputable def trainset7' : ℕ → String → String → Option Vec :=
  fun day => if day = 0 then (fun _ _ => some v9) else (fun _ _ => some vzero)

/-- C7 counterexample: `outlier_detection` reads the wall clock
(`datetime.now`) internally to pick the baseline weekday, so two runs
on identical inputs (same test vectors, same training set, same
constants) made on different wall-clock days give different outlier
records and a different day flag. -/
theorem wall_clock_dependence_counterexample :
    outlier_detection testset7 trainset7 0 = (false, []) ∧
    outlier_detection testset7 trainset7 1 =
      (true, [("c", "s", [(9 : Fin 24)])]) ∧
    outlier_detection testset7 trainset7 0 ≠ outlier_detection testset7 trainset7 1 := by
  have h0 : outlier_detection testset7 trainset7 0 = (false, []) := by
    unfold outlier_detection outliers_flag outlier_records testset7 trainset7
    simp [score_pair_self]
  have h1 : outlier_detection testset7 trainset7 1 =
      (true, [("c", "s", [(9 : Fin 24)])]) := by
    unfold outlier_detection outliers_flag outlier_records testset7 trainset7
    simp [score_pair, no_baseline_positions_v9]
  refine ⟨h0, h1, ?_⟩
  rw [h0, h1]
  simp

/-- C7 amended: the scoring is a deterministic function of the test
vectors, the training data and the clock-derived test weekday; it
depends on the training set only through the slice at that weekday, so
two runs with identical inputs and the same wall-clock weekday produce
identical outlier records and day flag. -/
theorem outlier_detection_deterministic
    (testset : List (String × List (String × Vec)))
    (trainset trainset' : ℕ → String → String → Option Vec) (day : ℕ)
    (h : trainset day = trainset' day) :
    outlier_detection testset trainset day = outlier_detection testset trainset' day := by
  unfold outlier_detection outliers_flag outlier_records
  simp only [h]

/-- Witness for `outlier_detection_deterministic`: `trainset7` and
`trainset7'` agree on weekday 0, so the two runs coincide there. -/
theorem outlier_detection_deterministic_witness :
    trainset7 0 = trainset7' 0 ∧
      outlier_detection testset7 trainset7 0 = outlier_detection testset7 trainset7' 0 :=
  ⟨rfl, outlier_detection_deterministic testset7 trainset7 trainset7' 0 rfl⟩

/-! ## The normalizer (esvectorize.ESVectorize)

Raw event records are dicts; they are modelled as ordered key → value
association lists with string values (rule numbers, severity codes and
signature ids are coerced to strings by the code itself).  A Python
`hit[key]` on a missing key raises an uncaught KeyError; a function
modelling code that can raise returns `Option` and yields `none` in
that case. -/

/-- A raw event record: an ordered key → value map. -/
abbrev Rec := List (String × String)

/-- Python `hit.get(key)` (and the truth of `key in hit`). -/
def recLookup (r : Rec) (key : String) : Option String :=
  (r.find? fun p => p.1 == key).map fun p => p.2

/-- esconstants.KEY_ES_TIMESTAMP. -/
def KEY_ES_TIMESTAMP : String := "@timestamp"

/-- esconstants.KEY_SURICATA_EVENTS. -/
def KEY_SURICATA_EVENTS : String := "event_type"

/-- Append hit `h` to the group keyed `k`, preserving first-seen group
order (Python dict insertion order), creating the group if absent. -/
def addHit (acc : List (String × List Rec)) (k : String) (h : Rec) :
    List (String × List Rec) :=
  match acc with
  | [] => [(k, [h])]
  | (k', hs) :: t => if k' = k then (k', hs ++ [h]) :: t else (k', hs) :: addHit t k h

/-- The loop of `_hits_by_key` (lines 326-341): categorize hits by
`hit[key]`.  A hit lacking `key` raises an uncaught KeyError, aborting
the day's normalization (`none`). -/
def hits_by_key_go (key : String) : List Rec → List (String × List Rec) →
    Option (List (String × List Rec))
  | [], acc => some acc
  | h :: t, acc =>
      match recLookup h key with
      | none => none
      | some v => hits_by_key_go key t (addHit acc v h)

/-- esvectorize.ESVectorize._hits_by_key (without the `_source`
unwrapping and suricata-nesting preamble, which do not affect the
grouping semantics modelled here). -/
def hits_by_key (source_list : List Rec) (key : String) :
    Option (List (String × List Rec)) :=
  hits_by_key_go key source_list []

/-- Increment the hour bucket `h` of a count vector. -/
def bump (v : ℕ → ℕ) (h : ℕ) : ℕ → ℕ :=
  fun i => if i = h then v i + 1 else v i

/-- The inner loop of `_hourly_counts` (lines 356-360): bucket one
group's hits by the hour of `hit['@timestamp']`.  `parseHour` stands
for the external `dateutil.parser.parse(...).time().hour`; a hit
lacking the timestamp key is an uncaught KeyError (`none`). -/
def count_hours (parseHour : String → ℕ) : List Rec → (ℕ → ℕ) → Option (ℕ → ℕ)
  | [], v => some v
  | r :: t, v =>
      match recLookup r KEY_ES_TIMESTAMP with
      | none => none
      | some ts => count_hours parseHour t (bump v (parseHour ts))

/-- esvectorize.ESVectorize._hourly_counts: one hourly count vector per
(subtype, hits) group (the trailing numpy column holding the subtype id
is kept alongside as the first pair component). -/
def hourly_counts (parseHour : String → ℕ) :
    List (String × List Rec) → Option (List (String × (ℕ → ℕ)))
  | [] => some []
  | (atype, hits) :: t =>
      match count_hours parseHour hits (fun _ => 0) with
      | none => none
      | some v => (hourly_counts parseHour t).map fun rest => (atype, v) :: rest

/-- The alert-filtering loop of `_munge_suricata` (lines 304-309),
embedded exactly as written: the `if len(alert_hits) == 0: return None`
check is INSIDE the `for` loop, so it runs after every record. -/
def suricata_filter_go : List Rec → List Rec → Option (List Rec)
  | [], acc => some acc
  | h :: t, acc =>
      let acc' := if recLookup h KEY_SURICATA_EVENTS = some "alert"
        then acc ++ [h] else acc
      if acc'.length = 0 then none else suricata_filter_go t acc'

/-- The alert list `_munge_suricata` goes on to count (`none` models
`return None`, i.e. no suricata vectors for the day). -/
def munge_suricata_alert_hits (hits : List Rec) : Option (List Rec) :=
  suricata_filter_go hits []

/-! ## Claim C5: suricata alert filtering -/

/-- A suricata record that is not an alert. -/
def flowRec : Rec :=
  [("event_type", "flow"), ("@timestamp", "2015-03-24T09:15:00"), ("signature_id", "2010935")]

/-- A suricata alert record. -/
def alertRec : Rec :=
  [("event_type", "alert"), ("@timestamp", "2015-03-24T10:20:00"), ("signature_id", "2010935")]

/-- C5 (bug): because the `len(alert_hits) == 0` early return sits
inside the filtering loop, a day whose FIRST suricata record is not an
alert yields no suricata vectors at all (`None`), even though the
filter retains a later alert record; with the alert first, the same two
records are processed normally.  This contradicts the claim that the
suricata category yields no vectors only when filtering removes all of
the day's records. -/
theorem suricata_first_record_bug :
    munge_suricata_alert_hits [flowRec, alertRec] = none ∧
    [flowRec, alertRec].filter
      (fun h => recLookup h KEY_SURICATA_EVENTS == some "alert") = [alertRec] ∧
    munge_suricata_alert_hits [alertRec, flowRec] = some [alertRec] :=
  ⟨rfl, rfl, rfl⟩

/-! ## Claim C6: malformed records are fatal, not excluded -/

/-- A well-formed ossec-style record. -/
def goodRec : Rec :=
  [("@timestamp", "2015-03-24T09:15:00"), ("rule_number", "100")]

/-- A record missing its required subcategory key `rule_number`. -/
def badRec : Rec :=
  [("@timestamp", "2015-03-24T11:05:00")]

/-- A record missing its required `@timestamp` key. -/
def noTsRec : Rec :=
  [("rule_number", "100")]

/-- C6 counterexample: a record lacking its required subcategory key is
not excluded: it aborts the whole day's grouping (uncaught KeyError),
although the same day without the malformed record normalizes fine. -/
theorem malformed_record_counterexample :
    hits_by_key [goodRec, badRec] "rule_number" = none ∧
    hits_by_key [goodRec] "rule_number" = some [("100", [goodRec])] ∧
    hourly_counts (fun _ => 9) [("100", [goodRec, noTsRec])] = none :=
  ⟨rfl, rfl, rfl⟩

lemma hits_by_key_go_malformed (key : String) (r : Rec)
    (hr : recLookup r key = none) (l1 l2 : List Rec) :
    ∀ acc, hits_by_key_go key (l1 ++ r :: l2) acc = none := by
  induction l1 with
  | nil => intro acc; simp [hits_by_key_go, hr]
  | cons a t ih =>
      intro acc
      rw [List.cons_append]
      unfold hits_by_key_go
      cases h : recLookup a key with
      | none => rfl
      | some v => exact ih _

lemma count_hours_malformed (parseHour : String → ℕ) (r : Rec)
    (hr : recLookup r KEY_ES_TIMESTAMP = none) (l1 l2 : List Rec) :
    ∀ v, count_hours parseHour (l1 ++ r :: l2) v = none := by
  induction l1 with
  | nil => intro v; simp [count_hours, hr]
  | cons a t ih =>
      intro v
      rw [List.cons_append]
      unfold count_hours
      cases h : recLookup a KEY_ES_TIMESTAMP with
      | none => rfl
      | some ts => exact ih _

/-- C6 amended: a record lacking its required subcategory key or
timestamp key is not excluded from the day's counts: wherever it sits
in the day's record list, the uncaught KeyError makes the whole
grouping / counting step yield nothing, so none of the remaining
well-formed records of the day produce vectors either. -/
theorem malformed_record_aborts_day :
    (∀ (l1 l2 : List Rec) (r : Rec) (key : String),
        recLookup r key = none → hits_by_key (l1 ++ r :: l2) key = none) ∧
    (∀ (parseHour : String → ℕ) (atype : String) (h1 h2 : List Rec) (r : Rec)
        (rest : List (String × List Rec)),
        recLookup r KEY_ES_TIMESTAMP = none →
          hourly_counts parseHour ((atype, h1 ++ r :: h2) :: rest) = none) := by
  constructor
  · intro l1 l2 r key h
    exact hits_by_key_go_malformed key r h l1 l2 []
  · intro parseHour atype h1 h2 r rest h
    unfold hourly_counts
    rw [count_hours_malformed parseHour r h h1 h2]

/-- Witness for `malformed_record_aborts_day` at the concrete records
above. -/
theorem malformed_record_aborts_day_witness :
    (recLookup badRec "rule_number" = none ∧
      hits_by_key [goodRec, badRec] "rule_number" = none) ∧
    (recLookup noTsRec KEY_ES_TIMESTAMP = none ∧
      hourly_counts (fun _ => 9) [("100", [goodRec, noTsRec])] = none) :=
  ⟨⟨rfl, malformed_record_aborts_day.1 [goodRec] [] badRec "rule_number" rfl⟩,
    ⟨rfl, malformed_record_aborts_day.2 (fun _ => 9) "100" [goodRec] [] noTsRec [] rfl⟩⟩

/-! ## Claim C4: the baseline-cleaning percentile band
(esanalyze.ESAnalyze.data_clean)

`data_clean` treats every (type, subtype) pair independently: the
aggregate pass stacks the pair's vectors over all days and averages
them when there is more than one, the percentile band is
`numpy.percentile(agg, [LOW_PC, HIGH_PC])`, and the final pass clamps
every hour value of every day's vector for the pair into that band.
The model below is that per-pair computation, with the pair's
historical vectors given as a list in day order. -/

/-- The 24 hour values of a vector, sorted ascending
(numpy.percentile sorts its input internally). -/
noncomputable def sorted_hours (v : Vec) : List ℝ :=
  ((List.finRange 24).map v).mergeSort fun a b => a ≤ b

/-- numpy.percentile with the default linear interpolation on a
24-element sample: the virtual position is `h = (24-1)·q/100` into the
sorted values, interpolated between the adjacent order statistics. -/
noncomputable def np_percentile (v : Vec) (q : ℝ) : ℝ :=
  (sorted_hours v).getD ⌊23 * q / 100⌋₊ 0 +
    (23 * q / 100 - (⌊23 * q / 100⌋₊ : ℝ)) *
      ((sorted_hours v).getD (⌊23 * q / 100⌋₊ + 1) ((sorted_hours v).getD ⌊23 * q / 100⌋₊ 0) -
        (sorted_hours v).getD ⌊23 * q / 100⌋₊ 0)

/-- The aggregate pass of `data_clean` (lines 61-97) for one pair: a
single historical vector is kept as is (`len(shape) == 1`), several
are stacked and averaged element-wise (`numpy.average(..., axis=0)`). -/
noncomputable def agg_vector : List Vec → Vec
  | [] => fun _ => 0
  | [v] => v
  | vs => fun i => (vs.map fun v => v i).sum / (vs.length : ℝ)

/-- `trim_data[type][subtype] = numpy.percentile(agg, [LOW_PC, HIGH_PC])`
(lines 100-102). -/
noncomputable def trim_band (vs : List Vec) : ℝ × ℝ :=
  (np_percentile (agg_vector vs) LOW_PC, np_percentile (agg_vector vs) HIGH_PC)

/-- The clamping of lines 107-116: values below the low cut are raised
to it, values above the high cut are lowered to it. -/
noncomputable def haircut (low high x : ℝ) : ℝ :=
  if x < low then low else if x > high then high else x

/-- The final pass of `data_clean` for one pair: every hour value of
every historical day's vector is clamped into the pair's band. -/
noncomputable def data_clean_pair (vs : List Vec) : List Vec :=
  vs.map fun v i => haircut (trim_band vs).1 (trim_band vs).2 (v i)

lemma sorted_hours_length (v : Vec) : (sorted_hours v).length = 24 := by
  unfold sorted_hours
  rw [(List.mergeSort_perm _ _).length_eq]
  simp

lemma sorted_hours_sorted (v : Vec) : (sorted_hours v).Sorted (· ≤ ·) :=
  List.sorted_mergeSort' _

lemma sorted_hours_le (v : Vec) {i j : ℕ} (hij : i ≤ j) (hj : j < 24) :
    (sorted_hours v).getD i 0 ≤ (sorted_hours v).getD j 0 := by
  have hlen := sorted_hours_length v
  have hi' : i < (sorted_hours v).length := by omega
  have hj' : j < (sorted_hours v).length := by omega
  rw [List.getD_eq_get _ _ hi', List.getD_eq_get _ _ hj']
  exact (sorted_hours_sorted v).rel_get_of_le (by exact hij)

/-- The band is ordered: the 1st percentile of the aggregate vector is
at most its 99th percentile. -/
lemma trim_band_le (vs : List Vec) : (trim_band vs).1 ≤ (trim_band vs).2 := by
  unfold trim_band np_percentile LOW_PC HIGH_PC
  set s := sorted_hours (agg_vector vs) with hs
  have hf1 : ⌊(23 : ℝ) * 1 / 100⌋₊ = 0 := by
    rw [Nat.floor_eq_zero]
    norm_num
  have hf99 : ⌊(23 : ℝ) * 99 / 100⌋₊ = 22 := by
    rw [Nat.floor_eq_iff (by norm_num)]
    norm_num
  rw [hf1, hf99]
  have hlen : s.length = 24 := sorted_hours_length (agg_vector vs)
  have e1 : s.getD 1 (s.getD 0 0) = s.getD 1 0 := by
    rw [List.getD_eq_getElem _ _ (by omega), List.getD_eq_getElem _ _ (by omega)]
  have e23 : s.getD 23 (s.getD 22 0) = s.getD 23 0 := by
    rw [List.getD_eq_getElem _ _ (by omega), List.getD_eq_getElem _ _ (by omega)]
  rw [e1, e23]
  have h01 : s.getD 0 0 ≤ s.getD 1 0 := sorted_hours_le _ (by norm_num) (by norm_num)
  have h122 : s.getD 1 0 ≤ s.getD 22 0 := sorted_hours_le _ (by norm_num) (by norm_num)
  have h2223 : s.getD 22 0 ≤ s.getD 23 0 := sorted_hours_le _ (by norm_num) (by norm_num)
  push_cast
  nlinarith [h01, h122, h2223]

/-- C4: for every pair with at least one historical sample, the
percentile band computed from the aggregate averaged vector satisfies
low ≤ high, and after the cleaning pass every hour value of every
historical day's vector for the pair lies in [low, high]. -/
theorem data_clean_band_sound (vs : List Vec) (hvs : vs ≠ []) :
    (trim_band vs).1 ≤ (trim_band vs).2 ∧
      ∀ v ∈ data_clean_pair vs, ∀ i, (trim_band vs).1 ≤ v i ∧ v i ≤ (trim_band vs).2 := by
  have hband := trim_band_le vs
  refine ⟨hband, ?_⟩
  intro v hv i
  obtain ⟨u, _, rfl⟩ := List.mem_map.1 hv
  dsimp only
  unfold haircut
  split_ifs <;> constructor <;> linarith

/-- Witness for `data_clean_band_sound` on the one-sample history
`[vzero]`. -/
theorem data_clean_band_sound_witness :
    ([vzero] : List Vec) ≠ [] ∧
      ((trim_band [vzero]).1 ≤ (trim_band [vzero]).2 ∧
        ∀ v ∈ data_clean_pair [vzero], ∀ i,
          (trim_band [vzero]).1 ≤ v i ∧ v i ≤ (trim_band [vzero]).2) :=
  ⟨by simp, data_clean_band_sound [vzero] (by simp)⟩

/-! ## Claim C8: monotonicity of the metric in a flagged hour's value

The counterexample uses test vectors supported on hours {0, 12} and a
baseline supported on hours {0, 3, 9, 15, 21}: the first five
components of their 24-point DFTs are rational, so the metric and the
flagging conditions evaluate exactly. -/

/-- The primitive 24th root of unity `exp(-2πi/24)` underlying the
24-point DFT. -/
noncomputable def zeta24 : ℂ := Complex.exp (-((Real.pi : ℂ) * Complex.I) / 12)

lemma exp_term_zeta (k n : ℕ) :
    Complex.exp (-(2 * (Real.pi : ℂ) * Complex.I) * ((k : ℂ) * (n : ℂ)) / ((24 : ℕ) : ℂ)) =
      zeta24 ^ (k * n) := by
  unfold zeta24
  rw [← Complex.exp_nat_mul]
  congr 1
  push_cast
  ring

lemma fft24_val (g : ℕ → ℝ) (k : ℕ) :
    fft24 (fun n => g n.val) k = ∑ m in Finset.range 24, (g m : ℂ) * zeta24 ^ (k * m) := by
  unfold fft24 fftpack_fft
  rw [← Fin.sum_univ_eq_sum_range (fun m => (g m : ℂ) * zeta24 ^ (k * m)) 24]
  exact Finset.sum_congr rfl fun n _ => by rw [exp_term_zeta]

lemma zeta24_pow_12 : zeta24 ^ 12 = -1 := by
  unfold zeta24
  rw [← Complex.exp_nat_mul]
  rw [show ((12 : ℕ) : ℂ) * (-((Real.pi : ℂ) * Complex.I) / 12) =
      -((Real.pi : ℂ) * Complex.I) from by push_cast; ring]
  rw [Complex.exp_neg, Complex.exp_pi_mul_I]
  norm_num

lemma zeta24_pow_6 : zeta24 ^ 6 = -Complex.I := by
  unfold zeta24
  rw [← Complex.exp_nat_mul]
  rw [show ((6 : ℕ) : ℂ) * (-((Real.pi : ℂ) * Complex.I) / 12) =
      -((Real.pi : ℂ) / 2) * Complex.I from by push_cast; ring]
  rw [Complex.exp_mul_I, Complex.cos_neg, Complex.sin_neg,
    Complex.cos_pi_div_two, Complex.sin_pi_div_two]
  ring

/-- A test day with count `p` at hour 0 and count `q` at hour 12
(ℕ-indexed body). -/
noncomputable def test_spikes_nat (p q : ℝ) : ℕ → ℝ :=
  fun m => if m = 0 then p else if m = 12 then q else 0

/-- A test day with count `p` at hour 0 and count `q` at hour 12. -/
noncomputable def test_spikes (p q : ℝ) : Vec :=
  fun n => test_spikes_nat p q n.val

/-- The C8 baseline (ℕ-indexed body): 21 at hour 0 and 5 at each of
hours 3, 9, 15, 21. -/
noncomputable def bline8_nat : ℕ → ℝ :=
  fun m => if m = 0 then 21 else if m = 3 then 5 else if m = 9 then 5 else
    if m = 15 then 5 else if m = 21 then 5 else 0

/-- The C8 baseline: 21 at hour 0 and 5 at each of hours 3, 9, 15, 21.
Its DFT components 0..4 are (41, 21, 21, 21, 1). -/
noncomputable def bline8 : Vec := fun n => bline8_nat n.val

lemma fft24_test_spikes (p q : ℝ) (k : ℕ) :
    fft24 (test_spikes p q) k = (p : ℂ) + (q : ℂ) * (-1) ^ k := by
  unfold test_spikes
  rw [fft24_val]
  norm_num [Finset.sum_range_succ, test_spikes_nat]
  rw [show k * 12 = 12 * k from Nat.mul_comm k 12, pow_mul, zeta24_pow_12]
  exact Or.inl rfl

lemma fft24_bline8_0 : fft24 bline8 0 = ((41 : ℝ) : ℂ) := by
  unfold bline8
  rw [fft24_val]
  norm_num [Finset.sum_range_succ, bline8_nat]

lemma fft24_bline8_1 : fft24 bline8 1 = ((21 : ℝ) : ℂ) := by
  unfold bline8
  rw [fft24_val]
  norm_num [Finset.sum_range_succ, bline8_nat]
  rw [show zeta24 ^ 9 = zeta24 ^ 3 * zeta24 ^ 6 from by rw [← pow_add],
    show zeta24 ^ 15 = zeta24 ^ 3 * zeta24 ^ 12 from by rw [← pow_add],
    show zeta24 ^ 21 = zeta24 ^ 3 * zeta24 ^ 6 * zeta24 ^ 12 from by
      rw [mul_assoc, ← pow_add, ← pow_add],
    zeta24_pow_6, zeta24_pow_12]
  ring

lemma fft24_bline8_2 : fft24 bline8 2 = ((21 : ℝ) : ℂ) := by
  unfold bline8
  rw [fft24_val]
  norm_num [Finset.sum_range_succ, bline8_nat]
  rw [show zeta24 ^ 18 = zeta24 ^ 6 * zeta24 ^ 12 from by rw [← pow_add],
    show zeta24 ^ 30 = zeta24 ^ 6 * zeta24 ^ 12 * zeta24 ^ 12 from by
      rw [mul_assoc, ← pow_add, ← pow_add],
    show zeta24 ^ 42 = zeta24 ^ 6 * zeta24 ^ 12 * zeta24 ^ 12 * zeta24 ^ 12 from by
      rw [mul_assoc, mul_assoc, ← pow_add, ← pow_add, ← pow_add],
    zeta24_pow_6, zeta24_pow_12]
  ring

lemma fft24_bline8_3 : fft24 bline8 3 = ((21 : ℝ) : ℂ) := by
  unfold bline8
  rw [fft24_val]
  norm_num [Finset.sum_range_succ, bline8_nat]
  rw [show zeta24 ^ 9 = zeta24 ^ 3 * zeta24 ^ 6 from by rw [← pow_add],
    show zeta24 ^ 27 = zeta24 ^ 3 * zeta24 ^ 12 * zeta24 ^ 12 from by
      rw [mul_assoc, ← pow_add, ← pow_add],
    show zeta24 ^ 45 = zeta24 ^ 3 * zeta24 ^ 6 * zeta24 ^ 12 * zeta24 ^ 12 * zeta24 ^ 12 from by
      rw [mul_assoc, mul_assoc, mul_assoc, ← pow_add, ← pow_add, ← pow_add, ← pow_add],
    show zeta24 ^ 63 = zeta24 ^ 3 * zeta24 ^ 12 * zeta24 ^ 12 * zeta24 ^ 12 *
        zeta24 ^ 12 * zeta24 ^ 12 from by
      rw [mul_assoc, mul_assoc, mul_assoc, mul_assoc, ← pow_add, ← pow_add, ← pow_add,
        ← pow_add, ← pow_add],
    zeta24_pow_6, zeta24_pow_12]
  ring

lemma fft24_bline8_4 : fft24 bline8 4 = ((1 : ℝ) : ℂ) := by
  unfold bline8
  rw [fft24_val]
  norm_num [Finset.sum_range_succ, bline8_nat]
  rw [show zeta24 ^ 36 = zeta24 ^ 12 * zeta24 ^ 12 * zeta24 ^ 12 from by
      rw [mul_assoc, ← pow_add, ← pow_add],
    show zeta24 ^ 60 = zeta24 ^ 12 * zeta24 ^ 12 * zeta24 ^ 12 * zeta24 ^ 12 * zeta24 ^ 12 from by
      rw [mul_assoc, mul_assoc, mul_assoc, ← pow_add, ← pow_add, ← pow_add, ← pow_add],
    show zeta24 ^ 84 = zeta24 ^ 12 * zeta24 ^ 12 * zeta24 ^ 12 * zeta24 ^ 12 *
        zeta24 ^ 12 * zeta24 ^ 12 * zeta24 ^ 12 from by
      rw [mul_assoc, mul_assoc, mul_assoc, mul_assoc, mul_assoc, ← pow_add, ← pow_add,
        ← pow_add, ← pow_add, ← pow_add, ← pow_add],
    zeta24_pow_12]
  ring

/-- The metric against `bline8` for a {0, 12}-supported test vector, in
terms of real absolute values. -/
lemma amplitude_diff_spikes_bline8 (p q : ℝ) :
    amplitude_diff (test_spikes p q) bline8 =
      (|(|p + q|) - 41| + |(|p - q|) - 21| / 2 + |(|p + q|) - 21| / 4 +
          |(|p - q|) - 21| / 8 + |(|p + q|) - 1| / 16) / 5 := by
  unfold amplitude_diff fft_amplitude_diff FFT_ANALYSIS_DEPTH
  rw [show (5 : ℕ) - 1 = 4 from rfl]
  norm_num [freq_diffs_from, FFT_COMPONENT_WEIGHT]
  rw [fft24_test_spikes, fft24_test_spikes, fft24_test_spikes, fft24_test_spikes,
    fft24_test_spikes, fft24_bline8_0, fft24_bline8_1, fft24_bline8_2, fft24_bline8_3,
    fft24_bline8_4]
  rw [show ((p : ℂ) + (q : ℂ) * (-1) ^ (0 : ℕ)) = ((p + q : ℝ) : ℂ) from by push_cast; ring,
    show ((p : ℂ) + (q : ℂ) * (-1) ^ (1 : ℕ)) = ((p - q : ℝ) : ℂ) from by push_cast; ring,
    show ((p : ℂ) + (q : ℂ) * (-1) ^ (2 : ℕ)) = ((p + q : ℝ) : ℂ) from by push_cast; ring,
    show ((p : ℂ) + (q : ℂ) * (-1) ^ (3 : ℕ)) = ((p - q : ℝ) : ℂ) from by push_cast; ring,
    show ((p : ℂ) + (q : ℂ) * (-1) ^ (4 : ℕ)) = ((p + q : ℝ) : ℂ) from by push_cast; ring]
  simp only [Complex.abs_ofReal]
  rw [show |(41 : ℝ)| = 41 from abs_of_nonneg (by norm_num),
    show |(21 : ℝ)| = 21 from abs_of_nonneg (by norm_num),
    show |(1 : ℝ)| = 1 from abs_of_nonneg (by norm_num)]
  ring

lemma counterfactual_spikes (p q : ℝ) :
    counterfactual (test_spikes p q) bline8 0 = test_spikes 21 q := by
  funext n
  unfold counterfactual
  rcases eq_or_ne n 0 with rfl | h
  · rw [Function.update_same]
    rfl
  · rw [Function.update_noteq h]
    have hv : n.val ≠ 0 := fun hv => h (Fin.ext (by simpa using hv))
    simp [test_spikes, test_spikes_nat, hv]

lemma update_spikes (p p' q : ℝ) :
    Function.update (test_spikes p q) (0 : Fin 24) p' = test_spikes p' q := by
  funext n
  rcases eq_or_ne n 0 with rfl | h
  · rw [Function.update_same]
    rfl
  · rw [Function.update_noteq h]
    have hv : n.val ≠ 0 := fun hv => h (Fin.ext (by simpa using hv))
    simp [test_spikes, test_spikes_nat, hv]

lemma mem_compared_positions (test train : Vec) (i : Fin 24) :
    i ∈ compared_positions test train ↔
      ¬ amplitude_diff test train < FFT_TEST_DIFF_THRESHOLD ∧
        point_ratio test train i > FFT_POINT_DIFF_THRESHOLD := by
  unfold compared_positions
  split_ifs with h
  · simp [h]
  · simp [h, List.mem_filter]

/-- C8 counterexample: with baseline `bline8` and test vector
`test_spikes 10 8` (counts 10 at hour 0 and 8 at hour 12), hour 0 is
flagged (D = 587/80 ≥ 0.5 and relative improvement 255/587 > 0.25);
increasing only the hour-0 test count from 10 to 20 DECREASES the
metric (353/80 < 587/80) and REMOVES hour 0 from the flagged set
(improvement drops to 21/353 ≤ 0.25).  Both halves of the claimed
monotonicity fail. -/
theorem spike_monotonicity_counterexample :
    test_spikes 10 8 (0 : Fin 24) < test_spikes 20 8 (0 : Fin 24) ∧
    test_spikes 20 8 = Function.update (test_spikes 10 8) (0 : Fin 24) 20 ∧
    (0 : Fin 24) ∈ compared_positions (test_spikes 10 8) bline8 ∧
    amplitude_diff (test_spikes 20 8) bline8 < amplitude_diff (test_spikes 10 8) bline8 ∧
    (0 : Fin 24) ∉ compared_positions (test_spikes 20 8) bline8 := by
  have hDa : amplitude_diff (test_spikes 10 8) bline8 = 587 / 80 := by
    rw [amplitude_diff_spikes_bline8]
    rw [abs_of_nonneg (show (0 : ℝ) ≤ 10 + 8 from by norm_num),
      abs_of_nonneg (show (0 : ℝ) ≤ 10 - 8 from by norm_num),
      abs_of_nonpos (show (10 : ℝ) + 8 - 41 ≤ 0 from by norm_num),
      abs_of_nonpos (show (10 : ℝ) - 8 - 21 ≤ 0 from by norm_num),
      abs_of_nonpos (show (10 : ℝ) + 8 - 21 ≤ 0 from by norm_num),
      abs_of_nonneg (show (0 : ℝ) ≤ 10 + 8 - 1 from by norm_num)]
    norm_num
  have hDs : amplitude_diff (test_spikes 21 8) bline8 = 83 / 20 := by
    rw [amplitude_diff_spikes_bline8]
    rw [abs_of_nonneg (show (0 : ℝ) ≤ 21 + 8 from by norm_num),
      abs_of_nonneg (show (0 : ℝ) ≤ 21 - 8 from by norm_num),
      abs_of_nonpos (show (21 : ℝ) + 8 - 41 ≤ 0 from by norm_num),
      abs_of_nonpos (show (21 : ℝ) - 8 - 21 ≤ 0 from by norm_num),
      abs_of_nonneg (show (0 : ℝ) ≤ 21 + 8 - 21 from by norm_num),
      abs_of_nonneg (show (0 : ℝ) ≤ 21 + 8 - 1 from by norm_num)]
    norm_num
  have hDb : amplitude_diff (test_spikes 20 8) bline8 = 353 / 80 := by
    rw [amplitude_diff_spikes_bline8]
    rw [abs_of_nonneg (show (0 : ℝ) ≤ 20 + 8 from by norm_num),
      abs_of_nonneg (show (0 : ℝ) ≤ 20 - 8 from by norm_num),
      abs_of_nonpos (show (20 : ℝ) + 8 - 41 ≤ 0 from by norm_num),
      abs_of_nonpos (show (20 : ℝ) - 8 - 21 ≤ 0 from by norm_num),
      abs_of_nonneg (show (0 : ℝ) ≤ 20 + 8 - 21 from by norm_num),
      abs_of_nonneg (show (0 : ℝ) ≤ 20 + 8 - 1 from by norm_num)]
    norm_num
  refine ⟨?_, ?_, ?_, ?_, ?_⟩
  · norm_num [test_spikes, test_spikes_nat]
  · rw [update_spikes]
  · rw [mem_compared_positions]
    constructor
    · rw [hDa]
      norm_num [FFT_TEST_DIFF_THRESHOLD]
    · unfold point_ratio
      rw [counterfactual_spikes, hDa, hDs]
      norm_num [FFT_POINT_DIFF_THRESHOLD]
  · rw [hDa, hDb]
    norm_num
  · rw [mem_compared_positions]
    intro hmem
    have hr := hmem.2
    rw [point_ratio, counterfactual_spikes, hDb, hDs] at hr
    norm_num [FFT_POINT_DIFF_THRESHOLD] at hr

/-- C8 amended: increasing only the test value at hour `h` leaves the
counterfactual metric `D_h` (slot `h` already replaced by the baseline
value) unchanged; but neither monotonicity claimed for `D` nor
persistence of the flag holds: the metric can strictly decrease and
the hour can leave the flagged set, as `spike_monotonicity_counterexample`
shows at a concrete flagged hour. -/
theorem counterfactual_diff_invariant (test train : Vec) (h : Fin 24) (c : ℝ) :
    amplitude_diff (counterfactual (Function.update test h c) train h) train =
      amplitude_diff (counterfactual test train h) train := by
  unfold counterfactual
  rw [Function.update_idem]

end ESLog
